import Mathlib

/-!
# Verification of the Host Maintenance Utility scripts

Shallow embedding of the two scripts of this repository:
`linux/backup/backup.py` (config loading, disk-space guard, archiving
orchestration, retention pruning) and `linux/updateLinux/updateLinux.py`
(distribution detection, package-command dispatch), together with theorems
settling the specification's claims about them.

Modelling conventions:
* A directory is a `List FSFile`; each entry carries its file name and its
  modification time (`os.path.getmtime` is an abstract `Nat` here).
* Python's `sorted(..., key=os.path.getmtime)` is `List.insertionSort` on the
  mtime order, which is likewise a stable sort ascending in the key (any two
  stable ascending sorts agree, so this is extensionally `sorted`).
* Python's slice `files[:-k]` is `pyDropLastSlice files k`; note that for
  `k = 0` the slice `files[:-0]` is `files[:0] = []`, which the definition
  reproduces exactly.
* `os.remove(path)` removes the directory entry with that name.
* Exceptions caught inside a function are modelled by making the function
  total; an oracle (`CleanupFault`) injects the OS errors that the
  `try/except` inside `cleanup_old_files` can catch, including a failure
  part-way through the deletion loop.
-/

/-- A directory entry: file name and modification time. -/
structure FSFile where
  name : String
  mtime : Nat
deriving DecidableEq

/-- Python `s.endswith(suffix)` on code points. -/
def pyEndsWith (s suffix : String) : Bool :=
  suffix.data.isSuffixOf s.data

/-- The suffix filter used by `cleanup_old_files`: `f.endswith(extension)`. -/
def matchesSuffix (ext : String) (f : FSFile) : Bool :=
  pyEndsWith f.name ext

/-- Python slice `xs[:-k]` for a non-negative `k`: all but the last `k`
elements, except that `xs[:-0] = xs[:0] = []`. -/
def pyDropLastSlice (xs : List α) (k : Nat) : List α :=
  if k = 0 then [] else xs.take (xs.length - k)

/-- The sort key order: comparison of modification times. -/
def mtimeLE (a b : FSFile) : Prop := a.mtime ≤ b.mtime

instance : DecidableRel mtimeLE := fun a b => Nat.decLe a.mtime b.mtime

instance : IsTotal FSFile mtimeLE := ⟨fun a b => Nat.le_total a.mtime b.mtime⟩

instance : IsTrans FSFile mtimeLE := ⟨fun _ _ _ h h' => Nat.le_trans h h'⟩

/-- Embedding of `sorted(files, key=os.path.getmtime)`: stable sort ascending by mtime. -/
def sortByMtime (files : List FSFile) : List FSFile :=
  files.insertionSort mtimeLE

/-- The list of files `cleanup_old_files` deletes on a fault-free run:
the sorted matching files, all but the last `maxFiles` (`files[:-max_files]`),
and nothing when the count does not exceed `maxFiles`. -/
def deletedFiles (dir : List FSFile) (ext : String) (maxFiles : Nat) : List FSFile :=
  let files := sortByMtime (dir.filter (matchesSuffix ext))
  if maxFiles < files.length then pyDropLastSlice files maxFiles else []

/-- Effect of the `os.remove` calls: drop every directory entry whose name is
the name of a deleted file. -/
def removeByNames (dir : List FSFile) (deleted : List FSFile) : List FSFile :=
  dir.filter (fun f => deleted.all (fun d => d.name ≠ f.name))

/-- Embedding of `BackupManager.cleanup_old_files` on a run where no OS call raises:
list the files ending with `ext`, sort by mtime, and when there are more than
`maxFiles` of them remove `files[:-max_files]`. Returns the directory after
the removals. -/
def cleanup_old_files (dir : List FSFile) (ext : String) (maxFiles : Nat) : List FSFile :=
  removeByNames dir (deletedFiles dir ext maxFiles)

/-- Oracle for the OS errors the `try/except` in `cleanup_old_files` catches:
no error, an error while listing the directory (before any removal), or an
error at the `k`-th `os.remove` call (after `k` successful removals). -/
inductive CleanupFault where
  | noFault
  | listFail
  | removeFail (k : Nat)
deriving DecidableEq

/-- Embedding of `BackupManager.cleanup_old_files` under the fault oracle: the exception is
caught inside the function, so it always returns a directory state — unchanged
when listing failed, with only the first `k` removals applied when the `k`-th
`os.remove` raised. -/
def cleanupWithFault (fault : CleanupFault) (dir : List FSFile) (ext : String)
    (maxFiles : Nat) : List FSFile :=
  match fault with
  | .noFault => cleanup_old_files dir ext maxFiles
  | .listFail => dir
  | .removeFail k => removeByNames dir ((deletedFiles dir ext maxFiles).take k)

/-! ## Config loading (`load_config`) -/

/-- The parsed YAML document restricted to the keys `load_config` inspects:
each field is `none` when the key is absent from the document. The YAML
number for `min_free_space_gb` is idealised as a rational. -/
structure ConfigDoc where
  backup_root : Option String
  min_free_space_gb : Option ℚ
  max_backups : Option Nat
  source_dir : Option (Option String)
  log_level : Option String
  max_logs : Option Nat

/-- The fully-populated configuration `load_config` returns on success. -/
structure Config where
  backup_root : String
  min_free_space_gb : ℚ
  max_backups : Nat
  source_dir : Option String
  log_level : String
  max_logs : Nat
deriving DecidableEq

/-- The startup failure of `load_config` (the script raises `ValueError`
wrapped in `RuntimeError`; the design document names it `ConfigError`). -/
inductive ConfigError where
  | missingField (field : String)
deriving DecidableEq

/-- Embedding of `load_config`: check the required fields `backup_root`,
`min_free_space_gb`, `max_backups` in order, failing on the first absent one;
then `setdefault` the optional fields `source_dir=None`, `log_level="INFO"`,
`max_logs=5`. -/
def load_config (doc : ConfigDoc) : Except ConfigError Config :=
  match doc.backup_root with
  | none => .error (.missingField "backup_root")
  | some br =>
    match doc.min_free_space_gb with
    | none => .error (.missingField "min_free_space_gb")
    | some mf =>
      match doc.max_backups with
      | none => .error (.missingField "max_backups")
      | some mb =>
        .ok { backup_root := br
              min_free_space_gb := mf
              max_backups := mb
              source_dir := doc.source_dir.getD none
              log_level := doc.log_level.getD "INFO"
              max_logs := doc.max_logs.getD 5 }

/-! ## Disk space guard and the backup run (`check_disk_space`, `run_backup`) -/

/-- Embedding of `BackupManager.check_disk_space`: `shutil.disk_usage(...).free` divided by
`1024 ** 3` (idealised as exact rational division, written `mkRat` so the
value is computable; `mkRat n d = n / d` in `ℚ`) compared against
`min_free_space_gb`; logs and returns `False` when below, else `True`. -/
def check_disk_space (freeBytes : Nat) (minFreeGb : ℚ) : Bool :=
  let free_space_gb : ℚ := mkRat freeBytes (1024 ^ 3)
  if free_space_gb < minFreeGb then false else true

/-- The exceptions `run_backup` can raise internally and catch at its top
level (`RuntimeError` on low space, `FileNotFoundError` — the design
document's `SourceNotFoundError` — on a missing source, or an archiving
failure). -/
inductive BackupError where
  | insufficientSpace
  | sourceNotFound
  | archiveFailed
deriving DecidableEq

/-- The environment of one `run_backup` invocation: the state of the world the
script observes and mutates. `archiveName`/`archiveMtime` stand for the
timestamped name `backup_<basename>_<YYYYMMDD_HHMMSS>.tar.gz` and the creation
time of the archive `shutil.make_archive` produces; `archiveOk` is whether
that call succeeds; the two faults drive the `try/except` inside the two
`cleanup_old_files` calls. -/
structure Env where
  freeBytes : Nat
  sourceExists : Bool
  backupFiles : List FSFile
  logFiles : List FSFile
  archiveOk : Bool
  archiveName : String
  archiveMtime : Nat
  faultBackup : CleanupFault
  faultLog : CleanupFault

/-- Outcome of one `run_backup` invocation: its return value (which
`__main__` passes to `sys.exit`), the critical error logged by the top-level
handler if any, and the resulting contents of the backup and log
directories. -/
structure RunResult where
  exitCode : Nat
  err : Option BackupError
  backupFiles : List FSFile
  logFiles : List FSFile
deriving DecidableEq

/-- Embedding of `BackupManager.run_backup`: disk-space guard, source-existence check,
archive creation, then the two retention-pruner calls (archives by
`.tar.gz`/`max_backups`, logs by `.log`/`max_logs`), returning `0`; any raised
exception is caught at the top of the function, logged, and turned into
return value `1`. -/
def run_backup (cfg : Config) (env : Env) : RunResult :=
  if check_disk_space env.freeBytes cfg.min_free_space_gb = false then
    { exitCode := 1, err := some .insufficientSpace
      backupFiles := env.backupFiles, logFiles := env.logFiles }
  else if env.sourceExists = false then
    { exitCode := 1, err := some .sourceNotFound
      backupFiles := env.backupFiles, logFiles := env.logFiles }
  else if env.archiveOk = false then
    { exitCode := 1, err := some .archiveFailed
      backupFiles := env.backupFiles, logFiles := env.logFiles }
  else
    let afterArchive := env.backupFiles ++ [⟨env.archiveName, env.archiveMtime⟩]
    { exitCode := 0, err := none
      backupFiles := cleanupWithFault env.faultBackup afterArchive ".tar.gz" cfg.max_backups
      logFiles := cleanupWithFault env.faultLog env.logFiles ".log" cfg.max_logs }

/-- The backup tool's `__main__`: `sys.exit(manager.run_backup(...))`, so the
process exit code is `run_backup`'s return value. -/
def backupMain (cfg : Config) (env : Env) : Nat :=
  (run_backup cfg env).exitCode

/-! ## Distribution detection (`SystemUpdater._get_distribution`)

Python strings are modelled at the code-point level as `List Char` in this
section, so that the `strip`/`split` pipeline of `_get_distribution` can be
reasoned about directly. -/

/-- Python `s.strip(chars)` for a one-character class: drop the matching
characters from both ends. `pyStrip Char.isWhitespace` is `s.strip()`. -/
def pyStrip (p : Char → Bool) (l : List Char) : List Char :=
  ((l.dropWhile p).reverse.dropWhile p).reverse

/-- Python `s.split(sep)` for a one-character separator: split at every
occurrence, keeping empty pieces (`"ID=".split('=') == ["ID", ""]`). -/
def pySplit (sep : Char) : List Char → List (List Char)
  | [] => [[]]
  | c :: cs =>
    if c = sep then [] :: pySplit sep cs
    else
      match pySplit sep cs with
      | [] => [[c]]
      | piece :: rest => (c :: piece) :: rest

/-- Embedding of `line.startswith('ID=')`. -/
def startsWithID (line : List Char) : Bool :=
  "ID=".data.isPrefixOf line

/-- Embedding of `line.strip().split('=')[1].strip('"')` — the value extracted from the
first `ID=` line (the index `[1]` exists because the line contains `=`;
`getD` makes the model total). -/
def parseIdValue (line : List Char) : List Char :=
  pyStrip (fun c => c = '"') ((pySplit '=' (pyStrip Char.isWhitespace line)).getD 1 [])

/-- Embedding of `SystemUpdater._get_distribution`: the release-identification resource is
`none` when `/etc/os-release` does not exist, otherwise its list of lines
(without trailing newlines). Scan for the first line starting with `ID=` and
return its parsed value; fall back to `'unknown'`. -/
def get_distribution (osRelease : Option (List (List Char))) : List Char :=
  match osRelease with
  | none => "unknown".data
  | some lines =>
    match lines.find? startsWithID with
    | some line => parseIdValue line
    | none => "unknown".data

/-! ## Package command dispatch (`SystemUpdater.run`) -/

/-- An external command: the `argv` list handed to `subprocess.run`. -/
abbrev Cmd := List String

/-- The command `['apt', 'update']`. -/
def aptUpdateCmd : Cmd := ["apt", "update"]

/-- The command `['apt', 'upgrade', '-y']`, or `['apt', 'full-upgrade', '-y']` when the
`full_upgrade` flag is set. -/
def aptUpgradeCmd (full : Bool) : Cmd :=
  if full then ["apt", "full-upgrade", "-y"] else ["apt", "upgrade", "-y"]

/-- The `_apt_clean` sequence. -/
def aptCleanCmds : List Cmd :=
  [["apt", "autoremove", "-y"], ["apt", "clean"], ["rm", "-rf", "/var/lib/apt/lists/*"]]

/-- The `_dnf_upgrade` sequence after `filter(None, commands)`. -/
def dnfCmds (clean : Bool) : List Cmd :=
  [["dnf", "upgrade", "-y"]] ++
    (if clean then [["dnf", "autoremove", "-y"], ["dnf", "clean", "all"]] else [])

/-- The `_yum_upgrade` sequence after `filter(None, commands)`. -/
def yumCmds (clean : Bool) : List Cmd :=
  [["yum", "update", "-y"]] ++ (if clean then [["yum", "clean", "all"]] else [])

/-- Run a command sequence, halting at the first failure (each helper logs the
failing command's output and returns `False`). `exec` is the oracle for
`_run_command`'s success. Returns overall success and the trace of commands
actually issued, in order. -/
def runSeq (exec : Cmd → Bool) : List Cmd → Bool × List Cmd
  | [] => (true, [])
  | c :: cs =>
    if exec c then
      let r := runSeq exec cs
      (r.1, c :: r.2)
    else (false, [c])

/-- Python `'fedora' in distrib_id`: substring containment, as "the needle is
a prefix of some tail of the haystack". -/
def pyContains (hay needle : String) : Bool :=
  hay.data.tails.any (fun t => needle.data.isPrefixOf t)

/-- Embedding of `SystemUpdater.run`: dispatch on the detected distribution id. The apt
family runs update, then upgrade (full-upgrade under `--full`), then the clean
sequence when `--clean`; the dnf/yum family is selected by the substring test
`'fedora' in distrib_id`; any other id logs an unsupported-distribution error
and returns `False` without issuing a command. Returns overall success and
the trace of issued commands. -/
def SystemUpdater.run (distribId : String) (full clean : Bool)
    (exec : Cmd → Bool) : Bool × List Cmd :=
  if distribId = "debian" ∨ distribId = "ubuntu" ∨ distribId = "linuxmint" then
    if exec aptUpdateCmd = false then (false, [aptUpdateCmd])
    else if exec (aptUpgradeCmd full) = false then
      (false, [aptUpdateCmd, aptUpgradeCmd full])
    else if clean then
      let r := runSeq exec aptCleanCmds
      (r.1, aptUpdateCmd :: aptUpgradeCmd full :: r.2)
    else (true, [aptUpdateCmd, aptUpgradeCmd full])
  else if distribId = "fedora" ∨ distribId = "centos" ∨ distribId = "rhel" then
    if pyContains distribId "fedora" then runSeq exec (dnfCmds clean)
    else runSeq exec (yumCmds clean)
  else (false, [])

/-- The update tool's `__main__`: `sys.exit(0 if updater.run() else 1)`. -/
def updateMain (distribId : String) (full clean : Bool) (exec : Cmd → Bool) : Nat :=
  if (SystemUpdater.run distribId full clean exec).1 then 0 else 1

/-! ## Properties of the retention pruner -/

theorem sortByMtime_perm (l : List FSFile) : (sortByMtime l).Perm l :=
  List.perm_insertionSort mtimeLE l

theorem sortByMtime_length (l : List FSFile) : (sortByMtime l).length = l.length :=
  (sortByMtime_perm l).length_eq

theorem sortByMtime_pairwise (l : List FSFile) : (sortByMtime l).Pairwise mtimeLE :=
  List.sorted_insertionSort mtimeLE l

theorem pyDropLastSlice_subset (xs : List α) (k : Nat) : pyDropLastSlice xs k ⊆ xs := by
  unfold pyDropLastSlice
  split
  · exact List.nil_subset _
  · exact List.take_subset _ _

theorem deletedFiles_subset (dir : List FSFile) (ext : String) (N : Nat) :
    deletedFiles dir ext N ⊆ sortByMtime (dir.filter (matchesSuffix ext)) := by
  simp only [deletedFiles]
  split
  · exact pyDropLastSlice_subset _ _
  · exact List.nil_subset _

theorem mem_deletedFiles {dir : List FSFile} {ext : String} {N : Nat} {d : FSFile}
    (hd : d ∈ deletedFiles dir ext N) : d ∈ dir ∧ matchesSuffix ext d = true := by
  have h1 : d ∈ sortByMtime (dir.filter (matchesSuffix ext)) :=
    deletedFiles_subset dir ext N hd
  have h2 : d ∈ dir.filter (matchesSuffix ext) := (sortByMtime_perm _).mem_iff.mp h1
  exact List.mem_filter.mp h2

theorem deletedFiles_of_le {dir : List FSFile} {ext : String} {N : Nat}
    (h : (dir.filter (matchesSuffix ext)).length ≤ N) : deletedFiles dir ext N = [] := by
  simp only [deletedFiles, sortByMtime_length]
  rw [if_neg (by omega)]

theorem deletedFiles_zero (dir : List FSFile) (ext : String) : deletedFiles dir ext 0 = [] := by
  simp only [deletedFiles, pyDropLastSlice]
  split
  · simp
  · rfl

theorem deletedFiles_eq_take {dir : List FSFile} {ext : String} {N : Nat} (hN : N ≠ 0)
    (hm : N < (dir.filter (matchesSuffix ext)).length) :
    deletedFiles dir ext N =
      (sortByMtime (dir.filter (matchesSuffix ext))).take
        ((dir.filter (matchesSuffix ext)).length - N) := by
  simp only [deletedFiles, pyDropLastSlice, sortByMtime_length]
  rw [if_pos hm, if_neg hN]

theorem removeByNames_nil (dir : List FSFile) : removeByNames dir [] = dir := by
  simp [removeByNames]

theorem cleanup_of_le {dir : List FSFile} {ext : String} {N : Nat}
    (h : (dir.filter (matchesSuffix ext)).length ≤ N) : cleanup_old_files dir ext N = dir := by
  unfold cleanup_old_files
  rw [deletedFiles_of_le h, removeByNames_nil]

theorem cleanup_zero (dir : List FSFile) (ext : String) : cleanup_old_files dir ext 0 = dir := by
  unfold cleanup_old_files
  rw [deletedFiles_zero, removeByNames_nil]

theorem removeByNames_filter_nonmatching {ds : List FSFile} (dir : List FSFile) (ext : String)
    (hds : ∀ d ∈ ds, matchesSuffix ext d = true) :
    (removeByNames dir ds).filter (fun f => !(matchesSuffix ext f)) =
      dir.filter (fun f => !(matchesSuffix ext f)) := by
  unfold removeByNames
  rw [List.filter_filter]
  apply List.filter_congr
  intro x _
  cases hp : matchesSuffix ext x with
  | true => simp
  | false =>
    simp only [Bool.not_false, Bool.true_and]
    rw [List.all_eq_true]
    intro d hd
    have hmatch := hds d hd
    simp only [decide_eq_true_eq]
    intro heq
    unfold matchesSuffix at hmatch hp
    rw [heq] at hmatch
    rw [hmatch] at hp
    cases hp

theorem cleanup_filter_matched (dir : List FSFile) (ext : String) (N : Nat) :
    (cleanup_old_files dir ext N).filter (matchesSuffix ext) =
      (dir.filter (matchesSuffix ext)).filter
        (fun f => (deletedFiles dir ext N).all (fun d => d.name ≠ f.name)) := by
  unfold cleanup_old_files removeByNames
  rw [List.filter_filter, List.filter_filter]
  apply List.filter_congr
  intro x _
  exact Bool.and_comm _ _

theorem length_filter_le_of_prefix_false {l : List α} {p : α → Bool} (n : Nat)
    (h : ∀ x ∈ l.take n, p x = false) :
    (l.filter p).length ≤ l.length - n := by
  conv_lhs => rw [← List.take_append_drop n l]
  rw [List.filter_append, List.length_append]
  have h1 : (l.take n).filter p = [] :=
    List.filter_eq_nil_iff.mpr (by intro a ha; simp [h a ha])
  rw [h1]
  simp only [List.length_nil, Nat.zero_add]
  calc ((l.drop n).filter p).length ≤ (l.drop n).length := List.length_filter_le _ _
    _ = l.length - n := List.length_drop _ _

theorem not_all_of_mem {ds : List FSFile} {x : FSFile} (hx : x ∈ ds) :
    ds.all (fun d => d.name ≠ x.name) = false := by
  cases hall : ds.all (fun d => d.name ≠ x.name) with
  | false => rfl
  | true =>
    have := List.all_eq_true.mp hall x hx
    simp at this

theorem matched_cleanup_le {dir : List FSFile} {ext : String} {N : Nat} (hN : N ≠ 0)
    (hm : N < (dir.filter (matchesSuffix ext)).length) :
    ((cleanup_old_files dir ext N).filter (matchesSuffix ext)).length ≤ N := by
  rw [cleanup_filter_matched]
  have hperm := (sortByMtime_perm (dir.filter (matchesSuffix ext))).filter
    (fun f => (deletedFiles dir ext N).all (fun d => d.name ≠ f.name))
  rw [← hperm.length_eq]
  have hfalse : ∀ x ∈ (sortByMtime (dir.filter (matchesSuffix ext))).take
      ((dir.filter (matchesSuffix ext)).length - N),
      (fun f => (deletedFiles dir ext N).all (fun d => d.name ≠ f.name)) x = false := by
    intro x hx
    have hxdel : x ∈ deletedFiles dir ext N := by
      rw [deletedFiles_eq_take hN hm]; exact hx
    exact not_all_of_mem hxdel
  have := length_filter_le_of_prefix_false _ hfalse
  calc ((sortByMtime (dir.filter (matchesSuffix ext))).filter _).length
      ≤ (sortByMtime (dir.filter (matchesSuffix ext))).length -
          ((dir.filter (matchesSuffix ext)).length - N) := this
    _ ≤ N := by rw [sortByMtime_length]; omega

theorem matched_cleanup_eq {dir : List FSFile} {ext : String} {N : Nat}
    (hnodup : (dir.map FSFile.name).Nodup) (hN : N ≠ 0)
    (hm : N < (dir.filter (matchesSuffix ext)).length) :
    ((cleanup_old_files dir ext N).filter (matchesSuffix ext)).length = N := by
  have hdirnodup : dir.Nodup := List.Nodup.of_map _ hnodup
  have hmnodup : (dir.filter (matchesSuffix ext)).Nodup := hdirnodup.filter _
  have hsnodup : (sortByMtime (dir.filter (matchesSuffix ext))).Nodup :=
    (sortByMtime_perm _).symm.nodup hmnodup
  rw [cleanup_filter_matched]
  have hperm := (sortByMtime_perm (dir.filter (matchesSuffix ext))).filter
    (fun f => (deletedFiles dir ext N).all (fun d => d.name ≠ f.name))
  rw [← hperm.length_eq]
  have hsplit := List.take_append_drop ((dir.filter (matchesSuffix ext)).length - N)
    (sortByMtime (dir.filter (matchesSuffix ext)))
  conv_lhs => rw [← hsplit]
  rw [List.filter_append]
  have htake : ((sortByMtime (dir.filter (matchesSuffix ext))).take
      ((dir.filter (matchesSuffix ext)).length - N)).filter
      (fun f => (deletedFiles dir ext N).all (fun d => d.name ≠ f.name)) = [] := by
    apply List.filter_eq_nil_iff.mpr
    intro x hx
    have hxdel : x ∈ deletedFiles dir ext N := by
      rw [deletedFiles_eq_take hN hm]; exact hx
    simp only [not_all_of_mem hxdel]
    exact Bool.false_ne_true
  have hdrop : ((sortByMtime (dir.filter (matchesSuffix ext))).drop
      ((dir.filter (matchesSuffix ext)).length - N)).filter
      (fun f => (deletedFiles dir ext N).all (fun d => d.name ≠ f.name)) =
      (sortByMtime (dir.filter (matchesSuffix ext))).drop
        ((dir.filter (matchesSuffix ext)).length - N) := by
    apply List.filter_eq_self.mpr
    intro x hxdrop
    rw [List.all_eq_true]
    intro d hddel
    simp only [decide_eq_true_eq]
    intro heq
    have hdtake : d ∈ (sortByMtime (dir.filter (matchesSuffix ext))).take
        ((dir.filter (matchesSuffix ext)).length - N) := by
      rw [← deletedFiles_eq_take hN hm]; exact hddel
    have hdd : d ∈ dir := by
      have := (sortByMtime_perm _).mem_iff.mp (List.take_subset _ _ hdtake)
      exact (List.mem_filter.mp this).1
    have hxd : x ∈ dir := by
      have := (sortByMtime_perm _).mem_iff.mp (List.drop_subset _ _ hxdrop)
      exact (List.mem_filter.mp this).1
    have hdx : d = x := List.inj_on_of_nodup_map hnodup hdd hxd heq
    subst hdx
    exact List.disjoint_take_drop hsnodup (Nat.le_refl _) hdtake hxdrop
  rw [htake, hdrop, List.nil_append, List.length_drop, sortByMtime_length]
  omega

theorem cleanup_oldest_first {dir : List FSFile} {ext : String} {N : Nat} (hN : N ≠ 0)
    (hm : N < (dir.filter (matchesSuffix ext)).length) :
    ∀ kept ∈ (cleanup_old_files dir ext N).filter (matchesSuffix ext),
      ∀ d ∈ deletedFiles dir ext N, d.mtime ≤ kept.mtime := by
  intro kept hkept d hd
  rw [cleanup_filter_matched] at hkept
  obtain ⟨hkm, hkq⟩ := List.mem_filter.mp hkept
  have hks : kept ∈ sortByMtime (dir.filter (matchesSuffix ext)) :=
    (sortByMtime_perm _).mem_iff.mpr hkm
  have hsplit := List.take_append_drop ((dir.filter (matchesSuffix ext)).length - N)
    (sortByMtime (dir.filter (matchesSuffix ext)))
  rw [← hsplit] at hks
  rcases List.mem_append.mp hks with htake | hdrop
  · exfalso
    have hkdel : kept ∈ deletedFiles dir ext N := by
      rw [deletedFiles_eq_take hN hm]; exact htake
    rw [not_all_of_mem hkdel] at hkq
    cases hkq
  · have hpw := sortByMtime_pairwise (dir.filter (matchesSuffix ext))
    rw [← hsplit] at hpw
    have hcross := (List.pairwise_append.mp hpw).2.2
    have hdtake : d ∈ (sortByMtime (dir.filter (matchesSuffix ext))).take
        ((dir.filter (matchesSuffix ext)).length - N) := by
      rw [← deletedFiles_eq_take hN hm]; exact hd
    exact hcross d hdtake kept hdrop

/-- C1 (counterexample to the claim as stated): with retained count `N = 0`
and one matching file, the claim demands that all matching files be deleted,
but `cleanup_old_files` deletes nothing — the Python slice `files[:-0]` is
empty — so the matching file survives. -/
theorem cleanup_zero_retention_counterexample :
    cleanup_old_files [⟨"a.tar.gz", 0⟩] ".tar.gz" 0 = [⟨"a.tar.gz", 0⟩] ∧
    ([⟨"a.tar.gz", 0⟩] : List FSFile).filter (matchesSuffix ".tar.gz") ≠ [] := by
  decide

/-- C1 (amended): for a directory with pairwise-distinct file names and a
retained count `N ≥ 1`, when the number of files matching the suffix exceeds
`N` the pruner leaves exactly `N` matching files and every deleted file is no
newer than every kept matching file (oldest-first eviction by modification
time); when the matching count is at most `N` it deletes nothing. For `N = 0`
it deletes nothing (contrary to the original claim, because the slice
`files[:-0]` is empty). -/
theorem cleanup_retention (dir : List FSFile) (ext : String) (N : Nat)
    (hnodup : (dir.map FSFile.name).Nodup) :
    ((dir.filter (matchesSuffix ext)).length ≤ N → cleanup_old_files dir ext N = dir) ∧
    cleanup_old_files dir ext 0 = dir ∧
    (N ≠ 0 → N < (dir.filter (matchesSuffix ext)).length →
      ((cleanup_old_files dir ext N).filter (matchesSuffix ext)).length = N ∧
      (∀ d ∈ deletedFiles dir ext N, d ∈ dir ∧ matchesSuffix ext d = true) ∧
      (∀ kept ∈ (cleanup_old_files dir ext N).filter (matchesSuffix ext),
        ∀ d ∈ deletedFiles dir ext N, d.mtime ≤ kept.mtime)) :=
  ⟨fun h => cleanup_of_le h,
   cleanup_zero dir ext,
   fun hN hm =>
     ⟨matched_cleanup_eq hnodup hN hm,
      fun _ hd => mem_deletedFiles hd,
      cleanup_oldest_first hN hm⟩⟩

/-- C1 witness: a directory of three archives and a log file with retained
count 1 — exactly one archive survives and it is no older than the two
deleted ones. -/
theorem cleanup_retention_witness :
    ((cleanup_old_files [⟨"a.tar.gz", 1⟩, ⟨"b.tar.gz", 3⟩, ⟨"c.tar.gz", 2⟩, ⟨"d.log", 0⟩]
        ".tar.gz" 1).filter (matchesSuffix ".tar.gz")).length = 1 ∧
    (∀ kept ∈ (cleanup_old_files [⟨"a.tar.gz", 1⟩, ⟨"b.tar.gz", 3⟩, ⟨"c.tar.gz", 2⟩, ⟨"d.log", 0⟩]
        ".tar.gz" 1).filter (matchesSuffix ".tar.gz"),
      ∀ d ∈ deletedFiles [⟨"a.tar.gz", 1⟩, ⟨"b.tar.gz", 3⟩, ⟨"c.tar.gz", 2⟩, ⟨"d.log", 0⟩]
        ".tar.gz" 1, d.mtime ≤ kept.mtime) := by
  have h := (cleanup_retention
    [⟨"a.tar.gz", 1⟩, ⟨"b.tar.gz", 3⟩, ⟨"c.tar.gz", 2⟩, ⟨"d.log", 0⟩] ".tar.gz" 1
    (by decide)).2.2 (by decide) (by decide)
  exact ⟨h.1, h.2.2⟩

/-- C8: the retention pruner is idempotent — with no files added or modified
in between, a second fault-free run of `cleanup_old_files` changes nothing. -/
theorem cleanup_idempotent (dir : List FSFile) (ext : String) (N : Nat) :
    cleanup_old_files (cleanup_old_files dir ext N) ext N = cleanup_old_files dir ext N := by
  by_cases hN : N = 0
  · subst hN
    exact cleanup_zero (cleanup_old_files dir ext 0) ext
  · by_cases hm : (dir.filter (matchesSuffix ext)).length ≤ N
    · rw [cleanup_of_le hm]
      exact cleanup_of_le hm
    · exact cleanup_of_le (matched_cleanup_le hN (by omega))

/-- C10 (frame property): `cleanup_old_files` never removes a file whose name
does not end with the given suffix — on any run, faulty or not, the
non-matching entries of the directory are exactly preserved. -/
theorem cleanup_frame (fault : CleanupFault) (dir : List FSFile) (ext : String) (N : Nat) :
    (cleanupWithFault fault dir ext N).filter (fun f => !(matchesSuffix ext f)) =
      dir.filter (fun f => !(matchesSuffix ext f)) := by
  cases fault with
  | noFault =>
    exact removeByNames_filter_nonmatching dir ext (fun d hd => (mem_deletedFiles hd).2)
  | listFail => rfl
  | removeFail k =>
    exact removeByNames_filter_nonmatching dir ext
      (fun d hd => (mem_deletedFiles (List.take_subset _ _ hd)).2)

/-! ## Properties of the config loader, the disk-space guard and the run -/

theorem mkRat_nat_div (n d : Nat) : (mkRat (n : Int) d : ℚ) = (n : ℚ) / (d : ℚ) := by
  rw [Rat.mkRat_eq_divInt, Rat.divInt_eq_div]
  push_cast
  ring

/-- C3: `load_config` fails whenever one of the three required keys is
absent — it never returns a partial configuration — and when all three are
present it returns the configuration with the absent optional keys defaulted
to `source_dir=None`, `log_level="INFO"`, `max_logs=5`. -/
theorem load_config_required_and_defaults (doc : ConfigDoc) :
    ((doc.backup_root = none ∨ doc.min_free_space_gb = none ∨ doc.max_backups = none) →
      ∃ e, load_config doc = .error e) ∧
    (∀ br mf mb, doc.backup_root = some br → doc.min_free_space_gb = some mf →
      doc.max_backups = some mb →
      load_config doc = .ok
        { backup_root := br, min_free_space_gb := mf, max_backups := mb,
          source_dir := doc.source_dir.getD none,
          log_level := doc.log_level.getD "INFO",
          max_logs := doc.max_logs.getD 5 }) := by
  constructor
  · intro h
    rcases hbr : doc.backup_root with _ | br
    · exact ⟨ConfigError.missingField "backup_root", by simp [load_config, hbr]⟩
    · rcases hmf : doc.min_free_space_gb with _ | mf
      · exact ⟨ConfigError.missingField "min_free_space_gb", by simp [load_config, hbr, hmf]⟩
      · rcases hmb : doc.max_backups with _ | mb
        · exact ⟨ConfigError.missingField "max_backups", by simp [load_config, hbr, hmf, hmb]⟩
        · exfalso; rcases h with h | h | h <;> simp_all
  · intro br mf mb hbr hmf hmb
    simp [load_config, hbr, hmf, hmb]

/-- C3 witness: a document missing `max_backups` fails; a complete document
gets `source_dir`/`max_logs` defaulted while keeping its own `log_level`. -/
theorem load_config_required_and_defaults_witness :
    (∃ e, load_config ⟨some "/b", some 5, none, none, none, none⟩ = .error e) ∧
    load_config ⟨some "/b", some 5, some 3, none, some "DEBUG", none⟩ = .ok
      { backup_root := "/b", min_free_space_gb := 5, max_backups := 3,
        source_dir := none, log_level := "DEBUG", max_logs := 5 } :=
  ⟨(load_config_required_and_defaults ⟨some "/b", some 5, none, none, none, none⟩).1
      (Or.inr (Or.inr rfl)),
   (load_config_required_and_defaults ⟨some "/b", some 5, some 3, none, some "DEBUG", none⟩).2
      "/b" 5 3 rfl rfl rfl⟩

/-- C4: the disk-space guard returns true iff the free space on the backup
root's volume, converted to GiB, is at least `min_free_space_gb`; whenever it
returns false the backup run returns exit code 1 with the insufficient-space
error, leaving the backup directory untouched (no archive is created). -/
theorem disk_space_guard (cfg : Config) (env : Env) :
    (check_disk_space env.freeBytes cfg.min_free_space_gb = true ↔
      cfg.min_free_space_gb ≤ (env.freeBytes : ℚ) / 1024 ^ 3) ∧
    (check_disk_space env.freeBytes cfg.min_free_space_gb = false →
      (run_backup cfg env).exitCode = 1 ∧
      (run_backup cfg env).err = some BackupError.insufficientSpace ∧
      (run_backup cfg env).backupFiles = env.backupFiles ∧
      backupMain cfg env = 1) := by
  have hmk : (mkRat (env.freeBytes : Int) (1024 ^ 3) : ℚ) = (env.freeBytes : ℚ) / 1024 ^ 3 := by
    rw [mkRat_nat_div]
    push_cast
    ring
  constructor
  · simp only [check_disk_space, hmk]
    by_cases h : ((env.freeBytes : ℚ) / 1024 ^ 3) < cfg.min_free_space_gb
    · rw [if_pos h]
      exact iff_of_false Bool.false_ne_true (not_le.mpr h)
    · rw [if_neg h]
      exact iff_of_true rfl (not_lt.mp h)
  · intro h
    refine ⟨?_, ?_, ?_, ?_⟩ <;> simp [run_backup, backupMain, h]

/-- C4 witness: with 1 GiB free and a 10 GiB threshold, the guard returns
false and the run aborts with exit code 1 creating no archive. -/
theorem disk_space_guard_witness :
    (run_backup ⟨"/b", 10, 3, some "/s", "INFO", 5⟩
      ⟨1024 ^ 3, true, [⟨"backup_old.tar.gz", 1⟩], [], true, "backup_new.tar.gz", 9,
        .noFault, .noFault⟩).exitCode = 1 ∧
    (run_backup ⟨"/b", 10, 3, some "/s", "INFO", 5⟩
      ⟨1024 ^ 3, true, [⟨"backup_old.tar.gz", 1⟩], [], true, "backup_new.tar.gz", 9,
        .noFault, .noFault⟩).backupFiles = [⟨"backup_old.tar.gz", 1⟩] := by
  have h := (disk_space_guard ⟨"/b", 10, 3, some "/s", "INFO", 5⟩
    ⟨1024 ^ 3, true, [⟨"backup_old.tar.gz", 1⟩], [], true, "backup_new.tar.gz", 9,
      .noFault, .noFault⟩).2 (by decide)
  exact ⟨h.1, h.2.2.1⟩

/-- C5: when the disk-space check passes but the source directory does not
exist, the run fails with the source-not-found error, returns exit code 1
(the process exit code), and creates no archive file. -/
theorem run_backup_source_missing (cfg : Config) (env : Env)
    (hspace : check_disk_space env.freeBytes cfg.min_free_space_gb = true)
    (hsrc : env.sourceExists = false) :
    (run_backup cfg env).err = some BackupError.sourceNotFound ∧
    (run_backup cfg env).exitCode = 1 ∧
    (run_backup cfg env).backupFiles = env.backupFiles ∧
    backupMain cfg env = 1 := by
  refine ⟨?_, ?_, ?_, ?_⟩ <;> simp [run_backup, backupMain, hspace, hsrc]

/-- C5 witness: 2 GiB free against a 1 GiB threshold but a missing source
directory — the run aborts with `sourceNotFound` and the backup directory is
unchanged. -/
theorem run_backup_source_missing_witness :
    (run_backup ⟨"/b", 1, 3, some "/s", "INFO", 5⟩
      ⟨2 * 1024 ^ 3, false, [⟨"backup_old.tar.gz", 1⟩], [], true, "backup_new.tar.gz", 9,
        .noFault, .noFault⟩).err = some BackupError.sourceNotFound ∧
    (run_backup ⟨"/b", 1, 3, some "/s", "INFO", 5⟩
      ⟨2 * 1024 ^ 3, false, [⟨"backup_old.tar.gz", 1⟩], [], true, "backup_new.tar.gz", 9,
        .noFault, .noFault⟩).backupFiles = [⟨"backup_old.tar.gz", 1⟩] := by
  have h := run_backup_source_missing ⟨"/b", 1, 3, some "/s", "INFO", 5⟩
    ⟨2 * 1024 ^ 3, false, [⟨"backup_old.tar.gz", 1⟩], [], true, "backup_new.tar.gz", 9,
      .noFault, .noFault⟩ (by decide) rfl
  exact ⟨h.1, h.2.2.1⟩

/-- C9: every error raised inside the retention pruner is caught there
(`cleanupWithFault` is total for every fault) and does not abort the run —
when the guard passes, the source exists and archiving succeeds, `run_backup`
returns 0 with no critical error, whatever the two pruner faults are. -/
theorem run_backup_cleanup_nonfatal (cfg : Config) (env : Env)
    (hspace : check_disk_space env.freeBytes cfg.min_free_space_gb = true)
    (hsrc : env.sourceExists = true)
    (harch : env.archiveOk = true) :
    (run_backup cfg env).exitCode = 0 ∧ (run_backup cfg env).err = none := by
  constructor <;> simp [run_backup, hspace, hsrc, harch]

/-- C9 witness: both pruner calls fail (listing error on archives, a removal
error on logs) and the run still returns 0 with no critical error. -/
theorem run_backup_cleanup_nonfatal_witness :
    (run_backup ⟨"/b", 1, 3, some "/s", "INFO", 5⟩
      ⟨2 * 1024 ^ 3, true, [], [⟨"backup.log", 0⟩], true, "backup_new.tar.gz", 9,
        .listFail, .removeFail 0⟩).exitCode = 0 ∧
    (run_backup ⟨"/b", 1, 3, some "/s", "INFO", 5⟩
      ⟨2 * 1024 ^ 3, true, [], [⟨"backup.log", 0⟩], true, "backup_new.tar.gz", 9,
        .listFail, .removeFail 0⟩).err = none :=
  run_backup_cleanup_nonfatal ⟨"/b", 1, 3, some "/s", "INFO", 5⟩
    ⟨2 * 1024 ^ 3, true, [], [⟨"backup.log", 0⟩], true, "backup_new.tar.gz", 9,
      .listFail, .removeFail 0⟩ (by decide) rfl rfl

/-! ## Properties of the package command runner -/

/-- C6: for an apt-family distribution id with `clean = false`, when the
update step succeeds the runner issues exactly the two commands update then
upgrade (full-upgrade when the flag is set) and its overall success is that of
the upgrade step; when the update step fails it halts before issuing the
upgrade and returns failure. -/
theorem apt_update_then_upgrade (id : String) (full : Bool) (exec : Cmd → Bool)
    (hid : id = "debian" ∨ id = "ubuntu" ∨ id = "linuxmint") :
    (exec aptUpdateCmd = true →
      (SystemUpdater.run id full false exec).2 = [aptUpdateCmd, aptUpgradeCmd full] ∧
      (SystemUpdater.run id full false exec).1 = exec (aptUpgradeCmd full)) ∧
    (exec aptUpdateCmd = false →
      SystemUpdater.run id full false exec = (false, [aptUpdateCmd])) := by
  constructor
  · intro hupd
    unfold SystemUpdater.run
    rw [if_pos hid, hupd]
    cases hupg : exec (aptUpgradeCmd full) <;> simp [hupg]
  · intro hupd
    unfold SystemUpdater.run
    rw [if_pos hid, hupd]
    simp

/-- C6 witness: for `"ubuntu"`, with every command succeeding the trace is
exactly update then upgrade; with every command failing the runner stops at
`apt update`. -/
theorem apt_update_then_upgrade_witness :
    (SystemUpdater.run "ubuntu" false false (fun _ => true)).2 =
      [aptUpdateCmd, aptUpgradeCmd false] ∧
    SystemUpdater.run "ubuntu" true false (fun _ => false) = (false, [aptUpdateCmd]) :=
  ⟨((apt_update_then_upgrade "ubuntu" false (fun _ => true)
      (Or.inr (Or.inl rfl))).1 rfl).1,
   (apt_update_then_upgrade "ubuntu" true (fun _ => false)
      (Or.inr (Or.inl rfl))).2 rfl⟩

/-- C7: for any distribution id outside the six supported ones (including
`"unknown"`), the runner returns failure immediately without issuing a single
external command, and the process exits with code 1. -/
theorem unsupported_distribution (id : String) (full clean : Bool) (exec : Cmd → Bool)
    (h1 : ¬ (id = "debian" ∨ id = "ubuntu" ∨ id = "linuxmint"))
    (h2 : ¬ (id = "fedora" ∨ id = "centos" ∨ id = "rhel")) :
    SystemUpdater.run id full clean exec = (false, []) ∧
    updateMain id full clean exec = 1 := by
  have hrun : SystemUpdater.run id full clean exec = (false, []) := by
    unfold SystemUpdater.run
    rw [if_neg h1, if_neg h2]
  refine ⟨hrun, ?_⟩
  unfold updateMain
  rw [hrun]
  simp

/-- C7 witness: id `"arch"` — no command issued, failure returned, exit
code 1. -/
theorem unsupported_distribution_witness :
    SystemUpdater.run "arch" false false (fun _ => true) = (false, []) ∧
    updateMain "arch" false false (fun _ => true) = 1 :=
  unsupported_distribution "arch" false false (fun _ => true) (by decide) (by decide)

/-! ## Properties of the distribution detector -/

theorem dropWhile_eq_self_of_false {p : Char → Bool} :
    ∀ {l : List Char}, (∀ c ∈ l, p c = false) → l.dropWhile p = l
  | [], _ => rfl
  | c :: cs, h => by
    rw [List.dropWhile_cons, if_neg (by rw [h c (List.mem_cons_self c cs)]; exact Bool.false_ne_true)]

theorem pyStrip_eq_self {p : Char → Bool} {l : List Char}
    (h : ∀ c ∈ l, p c = false) : pyStrip p l = l := by
  unfold pyStrip
  rw [dropWhile_eq_self_of_false h,
    dropWhile_eq_self_of_false (fun c hc => h c (List.mem_reverse.mp hc)),
    List.reverse_reverse]

theorem pyStrip_quote_wrap (l : List Char) (h : ∀ c ∈ l, (decide (c = '"')) = false) :
    pyStrip (fun c => c = '"') ('"' :: (l ++ ['"'])) = l := by
  unfold pyStrip
  rw [List.dropWhile_cons, if_pos (by simp)]
  cases l with
  | nil =>
    simp [List.dropWhile]
  | cons x xs =>
    rw [List.cons_append, List.dropWhile_cons,
      if_neg (by rw [h x (List.mem_cons_self x xs)]; exact Bool.false_ne_true)]
    have hrev : (x :: (xs ++ ['"'])).reverse = '"' :: (x :: xs).reverse := by simp
    rw [hrev, List.dropWhile_cons, if_pos (by simp),
      dropWhile_eq_self_of_false
        (fun c hc => h c (List.mem_reverse.mp hc)),
      List.reverse_reverse]

theorem pySplit_no_sep {sep : Char} : ∀ {l : List Char}, sep ∉ l → pySplit sep l = [l]
  | [], _ => rfl
  | c :: cs, h => by
    simp only [pySplit]
    rw [if_neg (fun he => h (by rw [← he]; exact List.mem_cons_self c cs)),
      pySplit_no_sep (fun hm => h (List.mem_cons_of_mem c hm))]

theorem pySplit_append {sep : Char} : ∀ {xs : List Char}, sep ∉ xs → ∀ ys : List Char,
    pySplit sep (xs ++ sep :: ys) = xs :: pySplit sep ys
  | [], _, ys => by
    rw [List.nil_append]
    simp only [pySplit]
    simp
  | x :: xs, h, ys => by
    rw [List.cons_append]
    simp only [pySplit]
    rw [if_neg (fun he => h (by rw [← he]; exact List.mem_cons_self x xs)),
      pySplit_append (fun hm => h (List.mem_cons_of_mem x hm)) ys]

theorem idPrefix_data : "ID=".data = ['I', 'D', '='] := rfl

theorem parseIdValue_plain (v : List Char)
    (hws : ∀ c ∈ v, Char.isWhitespace c = false)
    (hne : '=' ∉ v) (hq : ∀ c ∈ v, (decide (c = '"')) = false) :
    parseIdValue ("ID=".data ++ v) = v := by
  unfold parseIdValue
  have hstrip : pyStrip Char.isWhitespace ("ID=".data ++ v) = "ID=".data ++ v := by
    apply pyStrip_eq_self
    intro c hc
    rcases List.mem_append.mp hc with h | h
    · rw [idPrefix_data] at h
      simp at h
      rcases h with rfl | rfl | rfl <;> rfl
    · exact hws c h
  rw [hstrip, idPrefix_data]
  have harr : (['I', 'D', '='] ++ v) = ['I', 'D'] ++ '=' :: v := rfl
  rw [harr, pySplit_append (by decide) v, pySplit_no_sep hne,
    List.getD_cons_succ, List.getD_cons_zero]
  exact pyStrip_eq_self hq

theorem parseIdValue_quoted (v : List Char)
    (hws : ∀ c ∈ v, Char.isWhitespace c = false)
    (hne : '=' ∉ v) (hq : ∀ c ∈ v, (decide (c = '"')) = false) :
    parseIdValue ("ID=".data ++ ('"' :: (v ++ ['"']))) = v := by
  unfold parseIdValue
  have hstrip : pyStrip Char.isWhitespace ("ID=".data ++ ('"' :: (v ++ ['"']))) =
      "ID=".data ++ ('"' :: (v ++ ['"'])) := by
    apply pyStrip_eq_self
    intro c hc
    rcases List.mem_append.mp hc with h | h
    · rw [idPrefix_data] at h
      simp at h
      rcases h with rfl | rfl | rfl <;> rfl
    · rcases List.mem_cons.mp h with rfl | h2
      · rfl
      · rcases List.mem_append.mp h2 with h3 | h3
        · exact hws c h3
        · simp at h3
          subst h3
          rfl
  rw [hstrip, idPrefix_data]
  have harr : (['I', 'D', '='] ++ ('"' :: (v ++ ['"']))) =
      ['I', 'D'] ++ '=' :: ('"' :: (v ++ ['"'])) := rfl
  have hnotin : '=' ∉ ('"' :: (v ++ ['"'])) := by
    intro hm
    rcases List.mem_cons.mp hm with he | hm2
    · exact absurd he (by decide)
    · rcases List.mem_append.mp hm2 with h3 | h3
      · exact hne h3
      · simp at h3
  rw [harr, pySplit_append (by decide) _, pySplit_no_sep hnotin,
    List.getD_cons_succ, List.getD_cons_zero]
  exact pyStrip_quote_wrap v hq

/-- C2 (counterexample to the claim as stated): with the resource containing
the line `ID=Ubuntu`, the detector returns `"Ubuntu"` verbatim — the value is
NOT lowercased (`_get_distribution` never calls `.lower()`), contradicting the
claim that an ID with uppercase letters comes back in lowercase form. -/
theorem get_distribution_not_lowercased :
    get_distribution (some ["ID=Ubuntu".data]) = "Ubuntu".data ∧
    get_distribution (some ["ID=Ubuntu".data]) ≠ "ubuntu".data := by
  decide

/-- C2 (amended): the distribution detector is a total function (it cannot
raise); it returns `"unknown"` when the release-identification resource is
absent or when no line starts with `ID=`, and when the first `ID=` line
carries a plain or double-quoted value it returns that value exactly as
written — unquoted but preserving case (not lowercased). -/
theorem get_distribution_spec (pre suf : List (List Char)) (v : List Char)
    (hpre : ∀ l ∈ pre, startsWithID l = false)
    (hws : ∀ c ∈ v, Char.isWhitespace c = false)
    (hne : '=' ∉ v)
    (hq : '"' ∉ v) :
    get_distribution none = "unknown".data ∧
    (∀ lines : List (List Char), (∀ l ∈ lines, startsWithID l = false) →
      get_distribution (some lines) = "unknown".data) ∧
    get_distribution (some (pre ++ ("ID=".data ++ v) :: suf)) = v ∧
    get_distribution (some (pre ++ ("ID=".data ++ ('"' :: (v ++ ['"']))) :: suf)) = v := by
  have hqd : ∀ c ∈ v, (decide (c = '"')) = false := by
    intro c hc
    simp only [decide_eq_false_iff_not]
    exact fun he => hq (he ▸ hc)
  have hprenone : pre.find? startsWithID = none :=
    List.find?_eq_none.mpr (fun l hl => by rw [hpre l hl]; exact Bool.false_ne_true)
  refine ⟨rfl, ?_, ?_, ?_⟩
  · intro lines hlines
    have hnone : lines.find? startsWithID = none :=
      List.find?_eq_none.mpr (fun l hl => by rw [hlines l hl]; exact Bool.false_ne_true)
    simp [get_distribution, hnone]
  · have hfind : (pre ++ ("ID=".data ++ v) :: suf).find? startsWithID =
        some ("ID=".data ++ v) := by
      rw [List.find?_append, hprenone, Option.none_or]
      apply List.find?_cons_of_pos
      exact List.isPrefixOf_iff_prefix.mpr (List.prefix_append _ _)
    simp only [get_distribution, hfind]
    exact parseIdValue_plain v hws hne hqd
  · have hfind : (pre ++ ("ID=".data ++ ('"' :: (v ++ ['"']))) :: suf).find? startsWithID =
        some ("ID=".data ++ ('"' :: (v ++ ['"']))) := by
      rw [List.find?_append, hprenone, Option.none_or]
      apply List.find?_cons_of_pos
      exact List.isPrefixOf_iff_prefix.mpr (List.prefix_append _ _)
    simp only [get_distribution, hfind]
    exact parseIdValue_quoted v hws hne hqd

/-- C2 witness: an absent resource gives `"unknown"`; a resource whose first
`ID=` line is `ID=ubuntu` (after a non-`ID` line) gives `"ubuntu"`; a quoted
`ID="fedora"` line gives `"fedora"`. -/
theorem get_distribution_spec_witness :
    get_distribution none = "unknown".data ∧
    get_distribution (some (["NAME=Foo".data] ++ ("ID=".data ++ "ubuntu".data) :: [])) =
      "ubuntu".data ∧
    get_distribution (some ([] ++ ("ID=".data ++ ('"' :: ("fedora".data ++ ['"']))) :: [])) =
      "fedora".data :=
  ⟨(get_distribution_spec ["NAME=Foo".data] [] "ubuntu".data
      (by decide) (by decide) (by decide) (by decide)).1,
   (get_distribution_spec ["NAME=Foo".data] [] "ubuntu".data
      (by decide) (by decide) (by decide) (by decide)).2.2.1,
   (get_distribution_spec [] [] "fedora".data
      (by decide) (by decide) (by decide) (by decide)).2.2.2⟩
